import Mathlib

/-!
Shallow embedding of `src/blueprints/parser.py` (class `CompactBlueprintParser`)
and verification of the frozen claims about it.

Python strings are modelled as Lean `String`s and manipulated through their
`List Char` field, which matches Python's code-point indexing/slicing.
Python's default whitespace set for `str.strip()` and the regex class `\s`
is modelled by `wsChar` (space, tab, LF, CR, VT, FF); character classes of
the regexes (`[A-Z]`, `\w`, ...) are the ASCII classes, as in the source's
intended inputs.  Each regular expression of the source is translated into a
deterministic Lean function; comments at each definition record the regex and
the backtracking analysis justifying the translation.
-/

namespace Blueprints

/-- Python whitespace (the characters stripped by `str.strip()` and matched
by `\s`, restricted to ASCII). -/
def wsChar (c : Char) : Bool :=
  c == ' ' || c == '\t' || c == '\n' || c == '\r' || c == '\x0b' || c == '\x0c'

/-- Python `str.strip()` on a character list. -/
def pyStripL (l : List Char) : List Char :=
  ((l.dropWhile wsChar).reverse.dropWhile wsChar).reverse

/-- Python `str.strip()`. -/
def pyStrip (s : String) : String := String.mk (pyStripL s.data)

/-- Python `str.strip(cs)` for a one-character class `cs` (used by the source
as `strip('#')` and `strip('\"\"\"')`, which strip the *characters* of the
argument from both ends). -/
def stripCharL (c : Char) (l : List Char) : List Char :=
  ((l.dropWhile (· == c)).reverse.dropWhile (· == c)).reverse

/-- Python `line.strip('#')`. -/
def stripHashes (s : String) : String := String.mk (stripCharL '#' s.data)

/-- Python `line.strip('\"\"\"')` (strips `\"` characters from both ends). -/
def stripQuotes (s : String) : String := String.mk (stripCharL '"' s.data)

/-- Python `c in s` for a single character: membership test. -/
def containsC (c : Char) (s : String) : Bool := s.data.any (fun x => x == c)

/-- Python `s.startswith(p)`. -/
def startsW (p s : String) : Bool := p.data.isPrefixOf s.data

/-- Python `not s` on a string (emptiness). -/
def isEmptyS (s : String) : Bool := s.data.isEmpty

/-- Python `s[n:]` (drop the first `n` code points). -/
def dropN (s : String) (n : Nat) : String := String.mk (s.data.drop n)

/-- Python `s.lower()` (ASCII). -/
def lowerS (s : String) : String := String.mk (s.data.map Char.toLower)

/-- Index of the first occurrence of `c` in `l` (`len l` when absent);
Python `s.index(c)` at its guarded call sites. -/
def idxC (c : Char) (l : List Char) : Nat :=
  (l.takeWhile (fun x => !(x == c))).length

/-- Python `s[a:b]` with `0 ≤ a, b` (empty when `a ≥ b`). -/
def sliceS (s : String) (a b : Nat) : String := String.mk ((s.data.take b).drop a)

/-- Everything before the first occurrence of `c` (Python `s.split(c, 1)[0]`
at call sites where `c in s` was checked first). -/
def beforeC (c : Char) (s : String) : String :=
  String.mk (s.data.takeWhile (fun x => !(x == c)))

/-- Everything after the first occurrence of `c` (Python `s.split(c, 1)[1]`
at call sites where `c in s` was checked first). -/
def afterC (c : Char) (s : String) : String :=
  String.mk ((s.data.dropWhile (fun x => !(x == c))).drop 1)

/-- Single-character split, Python `s.split(c)`: keeps empty pieces and
returns `[[]]` on the empty input, like Python's `''.split(c) == ['']`. -/
def splitCh (sep : Char) : List Char → List (List Char)
  | [] => [[]]
  | c :: t =>
    match splitCh sep t with
    | [] => [[]]
    | h :: r => if c == sep then [] :: h :: r else (c :: h) :: r

/-- Python `s.split(sep)` for a one-character separator. -/
def pySplit (sep : Char) (s : String) : List String :=
  (splitCh sep s.data).map String.mk

/-- Substring test: Python `p in s` for a multi-character `p`. -/
def isSubstr (p : List Char) : List Char → Bool
  | [] => p.isEmpty
  | c :: t => p.isPrefixOf (c :: t) || isSubstr p t

/-- Python `name.isupper()`: at least one cased character and no lowercase
character (ASCII: cased = letter). -/
def pyIsUpperS (s : String) : Bool :=
  s.data.any (fun c => c.isUpper || c.isLower) && s.data.all (fun c => !c.isLower)

/-- Character class `[A-Z0-9_]` of the constant regexes. -/
def constC (c : Char) : Bool := c.isUpper || c.isDigit || c == '_'

/-- Character class `\w` (ASCII: `[A-Za-z0-9_]`). -/
def wordC (c : Char) : Bool := c.isAlpha || c.isDigit || c == '_'

/-! ## Data model (`Method`, `Component`, `BlueprintReference`, `Blueprint`)

Direct translations of the `@dataclass` definitions.  `properties` is an
association list (the source only ever stores the single key `"type"`);
`file_path` is omitted: `parse_content` never sets it (only `parse_file`,
which does file I/O and is outside the embedding). -/

structure Method where
  name : String
  params : String
  return_type : Option String := none
  comment : Option String := none
  decorators : List String := []
  is_async : Bool := false
deriving DecidableEq

structure Component where
  type : String
  name : String
  base_class : Option String := none
  methods : List Method := []
  properties : List (String × String) := []
  value : Option String := none
  docstring : Option String := none
deriving DecidableEq

structure BlueprintReference where
  module_path : String
  items : List String := []
deriving DecidableEq

structure Blueprint where
  module_name : String
  description : String := ""
  blueprint_refs : List BlueprintReference := []
  components : List Component := []
  notes : List String := []
  raw_content : String := ""
deriving DecidableEq

/-- Errors `parse_content` can raise: the explicit
`ValueError("Blueprint must start with # module.name")` and the `IndexError`
from evaluating `name[0]` on an empty string in `_parse_component`. -/
inductive PErr
  | missingHeader
  | indexError
deriving DecidableEq

/-! ## Dependency-Line Parser (`_parse_blueprint_refs`) -/

/-- Body of the `for dep in deps_str.split(';')` loop of
`_parse_blueprint_refs`, after `dep = dep.strip()`: `none` for entries that
are skipped (`continue` / not blueprint-style), `some` for entries that are
appended. -/
def parseRefCore (d : String) : Option BlueprintReference :=
  if isEmptyS d then none
  else if startsW "." d || startsW "@" d then
    if containsC '[' d && containsC ']' d then
      -- package = dep[:dep.index('[')].strip(); strip a leading '@'
      let package0 := pyStrip (String.mk (d.data.take (idxC '[' d.data)))
      let package := if startsW "@" package0 then dropN package0 1 else package0
      -- items_str = dep[dep.index('[')+1:dep.index(']')]
      let items := (pySplit ',' (sliceS d (idxC '[' d.data + 1) (idxC ']' d.data))).map pyStrip
      some { module_path := package, items := items }
    else
      some { module_path := if startsW "@" d then dropN d 1 else d, items := [] }
  else none

/-- One loop iteration of `_parse_blueprint_refs` on the raw entry. -/
def parseRefEntry (d0 : String) : Option BlueprintReference :=
  parseRefCore (pyStrip d0)

/-- `_parse_blueprint_refs`: the imperative append loop is a `filterMap`. -/
def parseBlueprintRefs (s : String) : List BlueprintReference :=
  (pySplit ';' s).filterMap parseRefEntry

/-- Modelled from the claim's words (C5), for comparison with
`parseRefEntry`: entries are split on `;` and trimmed; empty entries and
entries not starting with `.` or `@` produce nothing; with both `[` and `]`
present the module path is the trimmed text before the first `[` with a
leading `@` stripped (a leading `.` kept) and the items are the bracket body
(the characters strictly between the first `[` and the first `]`) split on
`,`, each item trimmed; otherwise (also when `[` occurs without `]`) the
whole entry with only a leading `@` stripped is the module path, with no
items. -/
def refSpecCore (d : String) : Option BlueprintReference :=
  match d.data with
  | [] => none
  | c :: _ =>
    if c = '.' ∨ c = '@' then
      if containsC '[' d = true ∧ containsC ']' d = true then
        let path0 := pyStrip (beforeC '[' d)
        some { module_path := if startsW "@" path0 then dropN path0 1 else path0
               items := (pySplit ',' (sliceS d (idxC '[' d.data + 1) (idxC ']' d.data))).map pyStrip }
      else
        some { module_path := if startsW "@" d then dropN d 1 else d, items := [] }
    else none

/-- Specification form of one dependency entry (see `refSpecCore`). -/
def refEntrySpec (e : String) : Option BlueprintReference :=
  refSpecCore (pyStrip e)

/-! ## Component Classifier (`_parse_component`) : constant form

Gate regex `^[A-Z][A-Z0-9_]*:` (a `re.match` prefix test): an `[A-Z]`
character, then a maximal `[A-Z0-9_]` run (since `:` is not in the class, no
shorter run can be followed by `:` unless the maximal one is), then `:`. -/

def isConstGate (line : String) : Bool :=
  match line.data with
  | [] => false
  | c :: rest =>
    c.isUpper &&
      (match rest.dropWhile constC with
       | ':' :: _ => true
       | _ => false)

/-- Full constant regex `^([A-Z][A-Z0-9_]*):\s*([^=]+)(?:\s*=\s*(.+))?$`,
returning `(name, declared type stripped, value stripped)`.

Backtracking analysis (`rest2` = text after the `:`):
with no `=` in `rest2`, `\s*([^=]+)$` matches iff `rest2` is nonempty, and
the group differs from `rest2` only by a leading whitespace run, so its
`.strip()` equals `rest2.strip()`; with a first `=` present, `[^=]+` must
take at least one character before it and `(.+)` at least one after it, and
the groups' `.strip()` equal the strips of the text before/after that first
`=`.  When the regex fails the source falls through to the class rule. -/
def constFull (line : String) : Option (String × String × Option String) :=
  match line.data with
  | [] => none
  | c :: rest =>
    if c.isUpper then
      match rest.dropWhile constC with
      | ':' :: rest2 =>
        let pre := rest2.takeWhile (fun x => !(x == '='))
        match rest2.dropWhile (fun x => !(x == '=')) with
        | [] =>
          if rest2.isEmpty then none
          else some (String.mk (c :: rest.takeWhile constC), pyStrip (String.mk rest2), none)
        | _ :: post =>
          if pre.isEmpty || post.isEmpty then none
          else some (String.mk (c :: rest.takeWhile constC),
                     pyStrip (String.mk pre), some (pyStrip (String.mk post)))
      | _ => none
    else none

/-! ## Component Classifier : class form -/

/-- Tail `:?\s*$`: an optional `:` then only whitespace. -/
def colonWs (s : List Char) : Bool :=
  match s with
  | ':' :: t => t.all wsChar
  | _ => s.all wsChar

/-- Class regex `^(\w+)(?:\(([^)]+)\))?:?\s*$`, returning
`(name, base class)`.  The name is the maximal `\w` run (no following
alternative can consume a word character), the optional parenthesis group
needs a nonempty `)`-free body closed by `)`. -/
def classShape (line : String) : Option (String × Option String) :=
  let w := line.data.takeWhile wordC
  if w.isEmpty then none
  else
    match line.data.drop w.length with
    | '(' :: t =>
      let b := t.takeWhile (fun x => !(x == ')'))
      if b.isEmpty then none
      else
        match t.drop b.length with
        | ')' :: u => if colonWs u then some (String.mk w, some (String.mk b)) else none
        | _ => none
    | r => if colonWs r then some (String.mk w, none) else none

/-! ## Member/Signature parser (`_parse_method`) and function regexes

Both signature regexes contain `\((.*?)\)`: the lazy group tries each `)`
from left to right and keeps the first split whose tail matches, so the scan
below walks the text after `(`, testing the tail after each `)`. -/

/-- Tail of the method regex after `)`: `(?:\s*->\s*(.+))?$`.
Returns `none` when the tail does not match, `some ret?` otherwise.
With an arrow, `\s*` then `->` forces the whitespace run to be maximal
(`-` is not whitespace); the greedy `(.+)` then takes everything after the
post-arrow whitespace run (one whitespace character when only whitespace
remains, by backtracking of `\s*`).  Without an arrow the anchor `$`
requires the tail to be empty. -/
def methodTail (q : List Char) : Option (Option (List Char)) :=
  let a := q.dropWhile wsChar
  if ['-', '>'].isPrefixOf a then
    let s := a.drop 2
    if s.isEmpty then none
    else
      let r := s.dropWhile wsChar
      some (some (if r.isEmpty then [s.getLastD ' '] else r))
  else if q.isEmpty then some none else none

/-- Tail of the standalone-function regex after `)`:
`(?:\s*->\s*(.+?))?:?\s*$`.  With an arrow, the lazy `(.+?)` stops as early
as `:?\s*$` can finish, which makes the group the post-arrow text with the
trailing whitespace run removed and then at most one trailing `:` removed
(kept if removing it would empty the group); when only whitespace follows
the arrow the group is a single whitespace character.  Without an arrow the
tail must be an optional `:` followed by whitespace. -/
def funcTail (q : List Char) : Option (Option (List Char)) :=
  let a := q.dropWhile wsChar
  if ['-', '>'].isPrefixOf a then
    let s := a.drop 2
    if s.isEmpty then
      (match q with
       | ':' :: t => if t.all wsChar then some none else none
       | _ => if q.all wsChar then some none else none)
    else
      let r := s.dropWhile wsChar
      if r.isEmpty then some (some [s.getLastD ' '])
      else
        let t1 := (r.reverse.dropWhile wsChar).reverse
        let t2 := if t1.getLastD ' ' == ':' then t1.dropLast else t1
        some (some (if t2.isEmpty then t1 else t2))
  else
    match q with
    | ':' :: t => if t.all wsChar then some none else none
    | _ => if q.all wsChar then some none else none

/-- Scan for the `)` closing `\((.*?)\)`: try each `)` left to right,
accepting the first whose tail matches `tailFn`; `acc` holds the candidate
parameter text reversed. -/
def paramScan (tailFn : List Char → Option (Option (List Char))) (acc : List Char) :
    List Char → Option (List Char × Option (List Char))
  | [] => none
  | c :: t =>
    if c == ')' then
      match tailFn t with
      | some r => some (acc.reverse, r)
      | none => paramScan tailFn (')' :: acc) t
    else paramScan tailFn (c :: acc) t

/-- Core of the method regex after the optional `async`:
`(\w+)\((.*?)\)...` — maximal `\w` run, then `(`. -/
def methodCore (l : List Char) : Option (String × String × Option String) :=
  let w := l.takeWhile wordC
  if w.isEmpty then none
  else
    match l.drop w.length with
    | '(' :: t =>
      match paramScan methodTail [] t with
      | some (ps, rt) => some (String.mk w, String.mk ps, rt.map String.mk)
      | none => none
    | _ => none

/-- Method regex `^(?:async\s+)?(\w+)\((.*?)\)(?:\s*->\s*(.+))?$`.
The optional `async\s+` (greedy) is tried first; on failure the whole
pattern is retried without it. -/
def methodShape (line : String) : Option (String × String × Option String) :=
  let l := line.data
  let withAsync :=
    if "async".data.isPrefixOf l then
      match l.drop 5 with
      | c :: t => if wsChar c then methodCore (t.dropWhile wsChar) else none
      | [] => none
    else none
  match withAsync with
  | some r => some r
  | none => methodCore l

/-- Core of the function regex after the optional `async`:
`def\s+(\w+)\((.*?)\)...`. -/
def funcCore (l : List Char) : Option (String × String × Option String) :=
  if "def".data.isPrefixOf l then
    match l.drop 3 with
    | c :: t =>
      if wsChar c then
        let r := t.dropWhile wsChar
        let w := r.takeWhile wordC
        if w.isEmpty then none
        else
          match r.drop w.length with
          | '(' :: u =>
            match paramScan funcTail [] u with
            | some (ps, rt) => some (String.mk w, String.mk ps, rt.map String.mk)
            | none => none
          | _ => none
      else none
    | [] => none
  else none

/-- Function regex
`^(?:async\s+)?def\s+(\w+)\((.*?)\)(?:\s*->\s*(.+?))?:?\s*$`. -/
def funcShape (line : String) : Option (String × String × Option String) :=
  let l := line.data
  let withAsync :=
    if "async".data.isPrefixOf l then
      match l.drop 5 with
      | c :: t => if wsChar c then funcCore (t.dropWhile wsChar) else none
      | [] => none
    else none
  match withAsync with
  | some r => some r
  | none => funcCore l

/-- `_parse_method`: strip an inline `#` comment, recognise a property
(`:` and no `(`), otherwise match the method signature regex. -/
def parseMethod (line0 : String) : Option Method :=
  let line := if containsC '#' line0 then pyStrip (beforeC '#' line0) else line0
  let comment := if containsC '#' line0 then some (pyStrip (afterC '#' line0)) else none
  if containsC ':' line && !containsC '(' line then
    some { name := pyStrip (beforeC ':' line), params := ""
           return_type := some (pyStrip (afterC ':' line)), comment := comment }
  else
    match methodShape line with
    | some (n, ps, rt) =>
      some { name := n, params := ps, return_type := rt.map pyStrip, comment := comment
             is_async := startsW "async " (pyStrip line) }
    | none => none

/-! ## Class body loop, decorator lookback, docstring peek -/

/-- Loop condition of the class-member loop and the predicate for lines that
belong to a class body: `startswith('-') or startswith('@') or empty`. -/
def bodyCond (l : String) : Bool := startsW "-" l || startsW "@" l || isEmptyS l

/-- Member loop of the class rule.  `rem` is the exact remaining line count
`lines.length - i`, so `rem = 0` iff the Python `while i < len(lines)` test
fails; `decos` are the decorator lines accumulated since the last method. -/
def classBodyMethods (lines : List String) : Nat → Nat → List String → List Method → List Method
  | 0, _, _, acc => acc
  | rem + 1, i, decos, acc =>
    let ml := pyStrip (lines.getD i "")
    if bodyCond ml then
      if startsW "-" ml then
        match parseMethod (pyStrip (dropN ml 1)) with
        | some m =>
          classBodyMethods lines rem (i + 1) []
            (acc ++ [{ m with decorators := m.decorators ++ decos }])
        | none => classBodyMethods lines rem (i + 1) decos acc
      else if startsW "@" ml then
        classBodyMethods lines rem (i + 1) (decos ++ [ml]) acc
      else classBodyMethods lines rem (i + 1) decos acc
    else acc

/-- First index `≥ i` at which the class-member loop stops (its `i` when the
`while` condition first fails); `rem` as in `classBodyMethods`. -/
def classBodyEnd (lines : List String) : Nat → Nat → Nat
  | 0, i => i
  | rem + 1, i =>
    if bodyCond (pyStrip (lines.getD i "")) then classBodyEnd lines rem (i + 1) else i

/-- One past the last line consumed by the class rule started at `start`. -/
def classBodyStop (lines : List String) (start : Nat) : Nat :=
  classBodyEnd lines (lines.length - (start + 1)) (start + 1)

/-- Backward decorator scan of the function rule: `j` is `check_idx + 1`,
so `j = 0` encodes Python's `check_idx < 0`; lines are prepended, giving
source order. -/
def decoLookback (lines : List String) : Nat → List String → List String
  | 0, acc => acc
  | j + 1, acc =>
    let l := pyStrip (lines.getD j "")
    if startsW "@" l then decoLookback lines j (l :: acc) else acc

/-- Function rule of `_parse_component` (line already classified by
`funcShape`): async flag, backward decorators, one-line docstring peek. -/
def funcRule (lines : List String) (start : Nat) (line : String) : Option Component :=
  match funcShape line with
  | none => none
  | some (n, ps, rt) =>
    let decos := decoLookback lines start []
    let doc :=
      if start + 1 < lines.length then
        (if startsW "\"\"\"" (pyStrip (lines.getD (start + 1) "")) then
          some (stripQuotes (pyStrip (lines.getD (start + 1) "")))
        else none)
      else none
    some { type := "function", name := n
           methods := [{ name := n, params := ps, return_type := rt.map pyStrip
                         decorators := decos, is_async := startsW "async " (pyStrip line) }]
           docstring := doc }

/-- Rules 2–4 of `_parse_component` (constant regex, class, function), the
code reached when the assignment rule falls through.  `constFull line =
none` covers both a failing gate and a gate whose full regex fails; both
fall to the class rule in the source. -/
def componentTail (lines : List String) (start : Nat) (line : String) : Option Component :=
  match constFull line with
  | some (n, ty, v) =>
    some { type := "constant", name := n, properties := [("type", ty)], value := v }
  | none =>
    match classShape line with
    | some (n, b) =>
      if start + 1 < lines.length then
        if startsW "-" (pyStrip (lines.getD (start + 1) "")) then
          some { type := "class", name := n, base_class := b
                 methods := classBodyMethods lines (lines.length - (start + 1)) (start + 1) [] [] }
        else funcRule lines start line
      else funcRule lines start line
    | none => funcRule lines start line

/-- `_parse_component`.  Rule 1 (assignment): with `=` present and no
leading `-`, split once on `=`; when the trimmed left side has no `:`,
Python evaluates `name[0]`, which raises `IndexError` when `name` is empty —
modelled as `Except.error .indexError`.  (`len(parts) == 2` always holds
after `split('=', 1)` with `=` present.) -/
def parseComponent (lines : List String) (start : Nat) : Except PErr (Option Component) :=
  let line := pyStrip (lines.getD start "")
  if containsC '=' line && !startsW "-" line then
    let name := pyStrip (beforeC '=' line)
    let value := pyStrip (afterC '=' line)
    if !containsC ':' name then
      match name.data with
      | [] => .error .indexError
      | c :: _ =>
        if (c.isUpper && name.data.any Char.isLower) || isSubstr "type".data (lowerS name).data then
          .ok (some { type := "type_alias", name := name, value := some value })
        else if pyIsUpperS name && containsC '_' name then
          .ok (some { type := "constant", name := name
                      properties := [("type", "auto")], value := some value })
        else .ok (componentTail lines start line)
    else .ok (componentTail lines start line)
  else .ok (componentTail lines start line)

/-! ## Span Resolver (`_find_component_end`) -/

/-- Prefix test of `^(?:async\s+)?def\s+\w+\(` (a `re.match`, not
anchored at the end). -/
def funcGateCore (l : List Char) : Bool :=
  if "def".data.isPrefixOf l then
    match l.drop 3 with
    | c :: t =>
      if wsChar c then
        let r := t.dropWhile wsChar
        let w := r.takeWhile wordC
        !w.isEmpty &&
          (match r.drop w.length with
           | '(' :: _ => true
           | _ => false)
      else false
    | [] => false
  else false

/-- `re.match(r'^(?:async\s+)?def\s+\w+\(', line)` as a Bool. -/
def isFuncDefStart (line : String) : Bool :=
  (if "async".data.isPrefixOf line.data then
    (match line.data.drop 5 with
     | c :: t => if wsChar c then funcGateCore (t.dropWhile wsChar) else false
     | [] => false)
  else false) || funcGateCore line.data

/-- `re.match(r'^\w+(?:\([^)]*\))?:?\s*$', line)` as a Bool (note `[^)]*`:
an empty parenthesis body is allowed here, unlike the class rule). -/
def isClassLineShape (line : String) : Bool :=
  let w := line.data.takeWhile wordC
  !w.isEmpty &&
    (match line.data.drop w.length with
     | '(' :: t =>
       let b := t.takeWhile (fun x => !(x == ')'))
       (match t.drop b.length with
        | ')' :: u => colonWs u
        | _ => false)
     | r => colonWs r)

/-- Scan loop of `_find_component_end`; `rem` is the exact remaining line
count `lines.length - i` (`rem = 0` iff the `while i < len(lines)` test
fails, returning `len(lines) - 1`). -/
def findEndAux (lines : List String) : Nat → Nat → Nat
  | 0, _ => lines.length - 1
  | rem + 1, i =>
    let line := pyStrip (lines.getD i "")
    if isEmptyS line || startsW "\"\"\"" line then findEndAux lines rem (i + 1)
    else if startsW "deps:" line || startsW "notes:" line || startsW "#" line then i - 1
    else if !isEmptyS line && !startsW "-" line && !startsW "@" line then
      if isFuncDefStart line || isClassLineShape line || isConstGate line ||
          (containsC '=' line && !startsW "-" line) then i - 1
      else findEndAux lines rem (i + 1)
    else findEndAux lines rem (i + 1)

/-- `_find_component_end`. -/
def findComponentEnd (lines : List String) (start : Nat) : Nat :=
  findEndAux lines (lines.length - (start + 1)) (start + 1)

/-! ## Document Driver (`parse_content`) -/

/-- Main driver loop of `parse_content`, starting at line index 2.  `fuel`
only bounds the recursion: every iteration advances `i` by at least one
(`findComponentEnd lines i ≥ i` whenever `i < lines.length`), so any
`fuel ≥ lines.length` computes the full loop; `parseContent` passes
`lines.length`. -/
def parseLoopF (lines : List String) : Nat → Nat → Blueprint → Except PErr Blueprint
  | 0, _, bp => .ok bp
  | fuel + 1, i, bp =>
    if i < lines.length then
      let line := pyStrip (lines.getD i "")
      if startsW "deps:" line then
        parseLoopF lines fuel (i + 1)
          { bp with blueprint_refs := parseBlueprintRefs (pyStrip (dropN line 5)) }
      else if startsW "notes:" line then
        parseLoopF lines fuel (i + 1)
          { bp with notes := (pySplit ',' (pyStrip (dropN line 6))).map pyStrip }
      else if !isEmptyS line && !startsW "#" line then
        match parseComponent lines i with
        | .error e => .error e
        | .ok (some c) =>
          parseLoopF lines fuel (findComponentEnd lines i + 1)
            { bp with components := bp.components ++ [c] }
        | .ok none => parseLoopF lines fuel (i + 1) bp
      else parseLoopF lines fuel (i + 1) bp
    else .ok bp

/-- `parse_content`: strip the content, split on newlines (never empty, as
in Python), require a `#`-prefixed first line, then run the driver loop. -/
def parseContent (content : String) : Except PErr Blueprint :=
  let lines := pySplit '\n' (pyStrip content)
  if startsW "#" (lines.headD "") then
    parseLoopF lines lines.length 2
      { module_name := pyStrip (stripHashes (lines.headD ""))
        description := if 1 < lines.length then pyStrip (lines.getD 1 "") else ""
        raw_content := content }
  else .error .missingHeader

/-! ## Claim theorems: concrete evaluations -/

/-- C1.  The claim says every input whose first line begins with `#` parses
to a Document with unrecognized lines (such as `= 5`, whose text before the
first `=` is empty) silently skipped.  The code instead evaluates `name[0]`
on the empty trimmed left-hand side and raises `IndexError`: this theorem
evaluates the parser at the failing input `"#m\nd\n= 5"`.  The spec's
stated design (silent skip, "must not break parsing") marks this as a bug
in the code. -/
theorem c1_eval : parseContent "#m\nd\n= 5" = Except.error PErr.indexError := rfl

/-- C6.  The claim's final clause says that when neither the type-alias nor
the constant condition holds, the assignment rule produces nothing and the
later rules are tried.  On the line `= 5` (empty trimmed name, so no
condition can hold) the code instead raises `IndexError` at `name[0]`:
this theorem evaluates the classifier at that failing line. -/
theorem c6_eval : parseComponent ["= 5"] 0 = Except.error PErr.indexError := rfl

/-- C8.  Parsing `Foo(Base):` followed by `- bar(x: int) -> str  # greeting`
produces one class component with base class `Base` and exactly one method
`bar` with parameters `x: int`, return type `str` and comment `greeting`. -/
theorem c8_class :
    parseComponent ["Foo(Base):", "- bar(x: int) -> str  # greeting"] 0 =
      Except.ok (some
        { type := "class", name := "Foo", base_class := some "Base"
          methods := [{ name := "bar", params := "x: int", return_type := some "str"
                        comment := some "greeting", decorators := [], is_async := false }]
          properties := [], value := none, docstring := none }) := rfl

/-- C3 counterexample.  With two `deps:` lines, the driver *assigns*
`blueprint.blueprint_refs = refs`, so the final Document holds only the last
line's reference `.b`; the claim's predicted appended sequence
`[.a, .b]` is not produced.  First conjunct: the full parse result; second
conjunct: the dependency sequence is not the appended one. -/
theorem c3_cex :
    parseContent "#m\nd\ndeps: .a\ndeps: .b" =
      Except.ok { module_name := "m", description := "d"
                  blueprint_refs := [{ module_path := ".b", items := [] }]
                  components := [], notes := []
                  raw_content := "#m\nd\ndeps: .a\ndeps: .b" } ∧
    (parseContent "#m\nd\ndeps: .a\ndeps: .b").toOption.map Blueprint.blueprint_refs ≠
      some [{ module_path := ".a", items := [] }, { module_path := ".b", items := [] }] :=
  ⟨rfl, by decide⟩

/-- C4 counterexample.  The input `"#"` parses successfully (its first line
starts with `#`) yet the resulting Document's `module_name` is the empty
string, refuting the claimed non-emptiness invariant. -/
theorem c4_cex : ∃ b, parseContent "#" = Except.ok b ∧ b.module_name = "" :=
  ⟨{ module_name := "", description := "", blueprint_refs := [], components := []
     notes := [], raw_content := "#" }, rfl, rfl⟩

/-- C7 counterexample.  The line `MAX:` matches "an upper-case name followed
by `:`" but yields no component at all (the full constant regex requires a
nonempty declared type, and with no following line the class rule cannot
fire either), while the claim predicts a constant with empty declared type. -/
theorem c7_cex : parseComponent ["MAX:"] 0 = Except.ok none := rfl

/-! ## Driver lemmas -/

/-- The classifier never raises the header error (its only error site is the
`IndexError` of the assignment rule). -/
theorem parseComponent_ne_missing (lines : List String) (i : Nat) :
    parseComponent lines i ≠ Except.error PErr.missingHeader := by
  intro h
  simp only [parseComponent] at h
  repeat' split at h
  all_goals exact absurd h (by simp)

/-- The driver loop never raises the header error. -/
theorem parseLoopF_ne_missing (lines : List String) :
    ∀ fuel i bp, parseLoopF lines fuel i bp ≠ Except.error PErr.missingHeader := by
  intro fuel
  induction fuel with
  | zero => intro i bp h; simp [parseLoopF] at h
  | succ n ih =>
    intro i bp h
    simp only [parseLoopF] at h
    split at h
    · split at h
      · exact ih _ _ h
      · split at h
        · exact ih _ _ h
        · split at h
          · cases hc : parseComponent lines i with
            | error e =>
              rw [hc] at h
              cases e with
              | missingHeader => exact parseComponent_ne_missing lines i hc
              | indexError => simp at h
            | ok oc =>
              rw [hc] at h
              cases oc with
              | none => exact ih _ _ h
              | some c => exact ih _ _ h
          · exact ih _ _ h
    · simp at h

/-- The driver loop touches only `blueprint_refs`, `notes` and `components`:
`module_name` and `description` survive unchanged. -/
theorem parseLoopF_fields (lines : List String) :
    ∀ fuel i bp b, parseLoopF lines fuel i bp = Except.ok b →
      b.module_name = bp.module_name ∧ b.description = bp.description := by
  intro fuel
  induction fuel with
  | zero =>
    intro i bp b h
    simp only [parseLoopF] at h
    cases h
    exact ⟨rfl, rfl⟩
  | succ n ih =>
    intro i bp b h
    simp only [parseLoopF] at h
    split at h
    · split at h
      · simpa using ih _ _ _ h
      · split at h
        · simpa using ih _ _ _ h
        · split at h
          · cases hc : parseComponent lines i with
            | error e => rw [hc] at h; simp at h
            | ok oc =>
              rw [hc] at h
              cases oc with
              | none => exact ih _ _ _ h
              | some c => simpa using ih _ _ _ h
          · exact ih _ _ _ h
    · cases h; exact ⟨rfl, rfl⟩

/-! ## Claims C2, C4 (header behaviour), C3 (deps replacement) -/

/-- Unfolding of `parseContent` with its `let` reduced (for controlled
rewriting). -/
theorem parseContent_eq (content : String) :
    parseContent content =
      (if startsW "#" ((pySplit '\n' (pyStrip content)).headD "") = true then
        parseLoopF (pySplit '\n' (pyStrip content)) (pySplit '\n' (pyStrip content)).length 2
          { module_name := pyStrip (stripHashes ((pySplit '\n' (pyStrip content)).headD ""))
            description := if 1 < (pySplit '\n' (pyStrip content)).length
                           then pyStrip ((pySplit '\n' (pyStrip content)).getD 1 "") else ""
            blueprint_refs := [], components := [], notes := [], raw_content := content }
      else Except.error PErr.missingHeader) := rfl

/-- C2 counterexample.  The claim ties the structural error to the first
line of the *input*, but `parse_content` strips the whole content before
splitting (`content.strip().split('\n')`): the input `" #m"` has a first
input line `" #m"` that does not start with `#`, yet the parse succeeds
(with `module_name = "m"`), refuting the claim as stated. -/
theorem c2_cex :
    startsW "#" ((pySplit '\n' " #m").headD "") = false ∧
    parseContent " #m" = Except.ok (Blueprint.mk "m" "" [] [] [] " #m") :=
  ⟨rfl, rfl⟩

/-- C2, amended.  `parse_content` first strips the input of surrounding
whitespace; the structural header error is raised exactly when the first
line of the *stripped* content (the code's `lines[0]`) does not start with
`#` — so inputs with leading whitespace before a `#` line still succeed.
On success, `module_name` is that first line with its `#` marker characters
and surrounding whitespace stripped (`lines[0].strip('#').strip()`) and
`description` is the trimmed second line when present, else empty.
Together with `parseLoopF_ne_missing` this shows no partial Document is
built in the error case (the error is returned before the loop runs). -/
theorem c2_header (content : String) :
    (parseContent content = Except.error PErr.missingHeader ↔
      startsW "#" ((pySplit '\n' (pyStrip content)).headD "") = false) ∧
    ∀ b, parseContent content = Except.ok b →
      b.module_name = pyStrip (stripHashes ((pySplit '\n' (pyStrip content)).headD "")) ∧
      b.description = (if 1 < (pySplit '\n' (pyStrip content)).length
                       then pyStrip ((pySplit '\n' (pyStrip content)).getD 1 "") else "") := by
  by_cases hs : startsW "#" ((pySplit '\n' (pyStrip content)).headD "") = true
  · constructor
    · constructor
      · intro h
        exfalso
        rw [parseContent_eq, if_pos hs] at h
        exact parseLoopF_ne_missing _ _ _ _ h
      · intro h
        rw [hs] at h
        cases h
    · intro b h
      rw [parseContent_eq, if_pos hs] at h
      simpa using parseLoopF_fields _ _ _ _ _ h
  · have hs' : startsW "#" ((pySplit '\n' (pyStrip content)).headD "") = false :=
      Bool.eq_false_iff.mpr hs
    constructor
    · constructor
      · intro _; exact hs'
      · intro _
        rw [parseContent_eq, if_neg hs]
    · intro b h
      rw [parseContent_eq, if_neg hs] at h
      cases h

/-- Witness for C2 at the concrete input `"#mod\ndesc"`. -/
theorem c2_header_w :
    (Blueprint.mk "mod" "desc" [] [] [] "#mod\ndesc").module_name =
      pyStrip (stripHashes ((pySplit '\n' (pyStrip "#mod\ndesc")).headD "")) ∧
    (Blueprint.mk "mod" "desc" [] [] [] "#mod\ndesc").description =
      (if 1 < (pySplit '\n' (pyStrip "#mod\ndesc")).length
       then pyStrip ((pySplit '\n' (pyStrip "#mod\ndesc")).getD 1 "") else "") :=
  (c2_header "#mod\ndesc").2 (Blueprint.mk "mod" "desc" [] [] [] "#mod\ndesc") rfl

/-- C4, amended.  On success `module_name` equals the first line with its
`#` characters and surrounding whitespace stripped — which may be the empty
string (first line `"#"`), so non-emptiness is not an invariant. -/
theorem c4_name : ∀ content b, parseContent content = Except.ok b →
    b.module_name = pyStrip (stripHashes ((pySplit '\n' (pyStrip content)).headD "")) := by
  intro content b h
  rcases Bool.eq_false_or_eq_true (startsW "#" ((pySplit '\n' (pyStrip content)).headD "")) with hs | hs
  · rw [parseContent_eq, if_pos hs] at h
    simpa using (parseLoopF_fields _ _ _ _ _ h).1
  · rw [parseContent_eq, if_neg (by rw [hs]; simp)] at h
    cases h

/-- Witness for C4's amended theorem at the concrete input `"#m"`. -/
theorem c4_name_w :
    (Blueprint.mk "m" "" [] [] [] "#m").module_name =
      pyStrip (stripHashes ((pySplit '\n' (pyStrip "#m")).headD "")) :=
  c4_name "#m" (Blueprint.mk "m" "" [] [] [] "#m") rfl

/-- C3, amended.  A `deps:` line *replaces* the Document's dependency
sequence with the references of that line alone (`blueprint.blueprint_refs
= refs` is an assignment, not an append), so only the last `deps:` line's
references survive. -/
theorem c3_replace (lines : List String) (fuel i : Nat) (bp : Blueprint)
    (h1 : i < lines.length)
    (h2 : startsW "deps:" (pyStrip (lines.getD i "")) = true) :
    parseLoopF lines (fuel + 1) i bp =
      parseLoopF lines fuel (i + 1)
        { bp with blueprint_refs :=
            parseBlueprintRefs (pyStrip (dropN (pyStrip (lines.getD i "")) 5)) } := by
  simp only [parseLoopF]
  rw [if_pos h1, if_pos h2]

/-- Witness for C3's amended theorem: the second `deps:` line of the C3
counterexample replaces the previously collected reference `.a`. -/
theorem c3_replace_w :
    parseLoopF ["#m", "d", "deps: .a", "deps: .b"] 2 3
        (Blueprint.mk "m" "d" [BlueprintReference.mk ".a" []] [] [] "c") =
      parseLoopF ["#m", "d", "deps: .a", "deps: .b"] 1 4
        { Blueprint.mk "m" "d" [BlueprintReference.mk ".a" []] [] [] "c" with
          blueprint_refs := parseBlueprintRefs
            (pyStrip (dropN (pyStrip ((["#m", "d", "deps: .a", "deps: .b"] : List String).getD 3 "")) 5)) } :=
  c3_replace ["#m", "d", "deps: .a", "deps: .b"] 1 3
    (Blueprint.mk "m" "d" [BlueprintReference.mk ".a" []] [] [] "c") (by decide) rfl

/-! ## Span Resolver lemmas (C9) -/

/-- A one-character prefix test on a cons decides its head. -/
theorem startsW_single {c : Char} {p L : String} (hp : p.data = [c])
    (h : startsW p L = true) : ∃ t, L.data = c :: t := by
  cases hL : L.data with
  | nil => simp [startsW, hp, hL, List.isPrefixOf] at h
  | cons a t =>
    simp only [startsW, hp, hL, List.isPrefixOf, Bool.and_true] at h
    have hca : c = a := beq_iff_eq.mp h
    subst hca
    exact ⟨t, rfl⟩

/-- A prefix test fails when the heads differ. -/
theorem startsW_cons_false {d c : Char} {pd t : List Char} {p L : String}
    (hp : p.data = d :: pd) (hL : L.data = c :: t) (h : (d == c) = false) :
    startsW p L = false := by
  simp [startsW, hp, hL, List.isPrefixOf, h]

/-- On a line of a class body (`-`/`@`/blank), the span-resolver loop takes
one of its "continue" branches. -/
theorem findEndAux_body (lines : List String) (rem i : Nat)
    (hb : bodyCond (pyStrip (lines.getD i "")) = true) :
    findEndAux lines (rem + 1) i = findEndAux lines rem (i + 1) := by
  simp only [findEndAux]
  generalize pyStrip (lines.getD i "") = L at hb ⊢
  simp only [bodyCond, Bool.or_eq_true] at hb
  rcases hb with (h | h) | h
  · obtain ⟨t, hL⟩ := startsW_single (c := '-') rfl h
    have h1 : isEmptyS L = false := by simp [isEmptyS, hL]
    have h2 : startsW "\"\"\"" L = false := startsW_cons_false rfl hL (by decide)
    have h3 : startsW "deps:" L = false := startsW_cons_false rfl hL (by decide)
    have h4 : startsW "notes:" L = false := startsW_cons_false rfl hL (by decide)
    have h5 : startsW "#" L = false := startsW_cons_false rfl hL (by decide)
    simp [h, h1, h2, h3, h4, h5]
  · obtain ⟨t, hL⟩ := startsW_single (c := '@') rfl h
    have h1 : isEmptyS L = false := by simp [isEmptyS, hL]
    have h2 : startsW "\"\"\"" L = false := startsW_cons_false rfl hL (by decide)
    have h3 : startsW "deps:" L = false := startsW_cons_false rfl hL (by decide)
    have h4 : startsW "notes:" L = false := startsW_cons_false rfl hL (by decide)
    have h5 : startsW "#" L = false := startsW_cons_false rfl hL (by decide)
    have h6 : startsW "-" L = false := startsW_cons_false rfl hL (by decide)
    simp [h, h1, h2, h3, h4, h5, h6]
  · simp [h]

/-- The span resolver never answers below `i - 1` (stated additively). -/
theorem findEndAux_ge (lines : List String) :
    ∀ rem i, 1 ≤ i → i + rem = lines.length → i ≤ findEndAux lines rem i + 1 := by
  intro rem
  induction rem with
  | zero =>
    intro i h1 h2
    simp only [findEndAux]
    omega
  | succ n ih =>
    intro i h1 h2
    have IH := ih (i + 1) (by omega) (by omega)
    simp only [findEndAux]
    split
    · omega
    · split
      · omega
      · split
        · split
          · omega
          · omega
        · omega

/-- Core of C9: the span resolver runs at least to the end of the class
body, i.e. the first non-body line is at most one past its answer. -/
theorem body_le_findEnd (lines : List String) :
    ∀ rem i, 1 ≤ i → i + rem = lines.length →
      classBodyEnd lines rem i ≤ findEndAux lines rem i + 1 := by
  intro rem
  induction rem with
  | zero =>
    intro i h1 h2
    simp only [classBodyEnd, findEndAux]
    omega
  | succ n ih =>
    intro i h1 h2
    by_cases hb : bodyCond (pyStrip (lines.getD i "")) = true
    · rw [findEndAux_body lines n i hb]
      simp only [classBodyEnd, hb, if_true]
      exact ih (i + 1) (by omega) (by omega)
    · simp only [classBodyEnd]
      rw [if_neg hb]
      have := findEndAux_ge lines (n + 1) i h1 h2
      omega

/-- C9.  When the classifier produces a class component at `start`, the
index returned by the span resolver is at least the last line consumed as
the class's body (`classBodyStop` is one past that line), so the driver's
next cursor `findComponentEnd + 1` lies beyond every body line: no body
line is ever re-classified as a new top-level component. -/
theorem c9_span (lines : List String) (start : Nat) (comp : Component)
    (hlt : start < lines.length)
    (_hcls : parseComponent lines start = Except.ok (some comp))
    (_hty : comp.type = "class") :
    classBodyStop lines start ≤ findComponentEnd lines start + 1 ∧
    ∀ k, start < k → k < classBodyStop lines start → k < findComponentEnd lines start + 1 := by
  have h0 : classBodyStop lines start ≤ findComponentEnd lines start + 1 := by
    unfold classBodyStop findComponentEnd
    exact body_le_findEnd lines (lines.length - (start + 1)) (start + 1) (by omega) (by omega)
  exact ⟨h0, fun k _ hk => lt_of_lt_of_le hk h0⟩

/-- Witness for C9 on a concrete two-line class followed by a constant. -/
theorem c9_span_w :
    classBodyStop ["Foo:", "- a()", "B = 2"] 0 ≤
      findComponentEnd ["Foo:", "- a()", "B = 2"] 0 + 1 :=
  (c9_span ["Foo:", "- a()", "B = 2"] 0
    (Component.mk "class" "Foo" none
      [Method.mk "a" "" none none [] false] [] none none)
    (by decide) rfl rfl).1

/-! ## Dependency-line claims (C5, C10) -/

/-- Python `dep[:dep.index(c)]` equals the `takeWhile` before the first
`c`. -/
theorem take_idxC (c : Char) (l : List Char) :
    l.take (idxC c l) = l.takeWhile (fun x => !(x == c)) := by
  induction l with
  | nil => rfl
  | cons a t ih =>
    by_cases h : (a == c) = true
    · simp [idxC, List.takeWhile, h]
    · have h' : (a == c) = false := by simpa using h
      have ih' : List.take (List.takeWhile (fun x => !(x == c)) t).length t =
          List.takeWhile (fun x => !(x == c)) t := by simpa [idxC] using ih
      simp [idxC, List.takeWhile, h', ih']

/-- The code's per-entry dependency parser coincides with the claim's
wording. -/
theorem refCore_eq (d : String) : parseRefCore d = refSpecCore d := by
  cases hd : d.data with
  | nil =>
    have he : isEmptyS d = true := by simp [isEmptyS, hd]
    simp [parseRefCore, refSpecCore, he, hd]
  | cons c t =>
    have hne : isEmptyS d = false := by simp [isEmptyS, hd]
    have hdot : startsW "." d = ('.' == c) := by
      simp [startsW, show (".").data = ['.'] from rfl, hd, List.isPrefixOf]
    have hat : startsW "@" d = ('@' == c) := by
      simp [startsW, show ("@").data = ['@'] from rfl, hd, List.isPrefixOf]
    by_cases hq : c = '.' ∨ c = '@'
    · have hcond : (startsW "." d || startsW "@" d) = true := by
        rcases hq with h | h <;> simp [hdot, hat, h]
      by_cases hb : (containsC '[' d && containsC ']' d) = true
      · have hb' : containsC '[' d = true ∧ containsC ']' d = true := by
          simpa [Bool.and_eq_true] using hb
        simp [parseRefCore, refSpecCore, hd, hne, hcond, hq, hb, hb', take_idxC, beforeC]
      · have hb' : ¬(containsC '[' d = true ∧ containsC ']' d = true) := by
          simpa [Bool.and_eq_true] using hb
        simp [parseRefCore, refSpecCore, hd, hne, hcond, hq, hb, hb']
    · have h1 : c ≠ '.' := fun h => hq (Or.inl h)
      have h2 : c ≠ '@' := fun h => hq (Or.inr h)
      have hcond : (startsW "." d || startsW "@" d) = false := by
        simp [hdot, hat, beq_eq_false_iff_ne.mpr (Ne.symm h1),
              beq_eq_false_iff_ne.mpr (Ne.symm h2)]
      simp [parseRefCore, refSpecCore, hd, hne, hcond, hq]

/-- C5.  For every deps-line text the sequence of recognized references
computed by the code equals, entry by entry, the claim's description
(trim-and-split on `;`, keep `.`/`@` entries, bracket handling with the
missing-`]` fallback). -/
theorem c5_refs : ∀ s, parseBlueprintRefs s = (pySplit ';' s).filterMap refEntrySpec := by
  intro s
  unfold parseBlueprintRefs
  congr 1
  funext e
  unfold parseRefEntry refEntrySpec
  exact refCore_eq (pyStrip e)

/-- A character-list split never produces the empty list of pieces. -/
theorem splitCh_ne_nil (sep : Char) (l : List Char) : splitCh sep l ≠ [] := by
  cases l with
  | nil => simp [splitCh]
  | cons c t =>
    simp only [splitCh]
    split
    · simp
    · split <;> simp

/-- Python `split` never returns an empty list. -/
theorem pySplit_ne_nil (sep : Char) (s : String) : pySplit sep s ≠ [] := by
  unfold pySplit
  simp only [ne_eq, List.map_eq_nil_iff]
  exact splitCh_ne_nil sep s.data

/-- C10.  A recognized deps entry containing both `[` and `]` always gets a
nonempty `items` list (splitting the bracket body on `,` yields at least one
piece), and concretely `.m[]` yields `items = [""]`, not `[]`. -/
theorem c10_items :
    (∀ d r, parseRefEntry d = some r →
      containsC '[' (pyStrip d) = true → containsC ']' (pyStrip d) = true →
      r.items ≠ []) ∧
    parseBlueprintRefs ".m[]" = [{ module_path := ".m", items := [""] }] := by
  constructor
  · intro d r h h1 h2
    unfold parseRefEntry parseRefCore at h
    split at h
    · cases h
    · split at h
      · split at h
        · cases h
          show ((pySplit ',' _).map pyStrip) ≠ []
          intro hnil
          rw [List.map_eq_nil_iff] at hnil
          exact pySplit_ne_nil _ _ hnil
        · rename_i hbr
          exact absurd (by simp [h1, h2]) hbr
      · cases h
  · rfl

/-- Witness for C10's general part at the concrete entry `.m[x]`. -/
theorem c10_items_w : (BlueprintReference.mk ".m" ["x"]).items ≠ [] :=
  c10_items.1 ".m[x]" (BlueprintReference.mk ".m" ["x"]) rfl rfl rfl

/-! ## Constant-form claim (C7) -/

/-- An element satisfying `p`, preceded only by elements satisfying `p`,
survives `takeWhile p`. -/
theorem mem_takeWhile_mid {p : Char → Bool} {a : Char} :
    ∀ (xs ys : List Char), (∀ x ∈ xs, p x = true) → p a = true →
      a ∈ (xs ++ a :: ys).takeWhile p := by
  intro xs
  induction xs with
  | nil =>
    intro ys _ hpa
    simp [List.takeWhile_cons, hpa]
  | cons x xs ih =>
    intro ys hall hpa
    have hx : p x = true := hall x (by simp)
    simp only [List.cons_append, List.takeWhile_cons, hx, if_true]
    exact List.mem_cons_of_mem x (ih ys (fun y hy => hall y (by simp [hy])) hpa)

/-- A non-whitespace element survives `dropWhile wsChar`. -/
theorem mem_dropWhile_ws {a : Char} (ha : wsChar a = false) :
    ∀ l : List Char, a ∈ l → a ∈ l.dropWhile wsChar := by
  intro l
  induction l with
  | nil => intro h; cases h
  | cons x t ih =>
    intro h
    by_cases hx : wsChar x = true
    · have hax : a ≠ x := fun he => by rw [he, hx] at ha; cases ha
      have hat : a ∈ t := by
        rcases List.mem_cons.mp h with h1 | h1
        · exact absurd h1 hax
        · exact h1
      simpa [List.dropWhile, hx] using ih hat
    · have hx' : wsChar x = false := by simpa using hx
      simpa [List.dropWhile, hx'] using h

/-- A non-whitespace character survives Python's `strip()`. -/
theorem containsC_pyStrip {c : Char} (hws : wsChar c = false) (s : String)
    (h : containsC c s = true) : containsC c (pyStrip s) = true := by
  have hmem : c ∈ s.data := by
    simp only [containsC, List.any_eq_true] at h
    rcases h with ⟨x, hx, he⟩
    exact (beq_iff_eq.mp he) ▸ hx
  have h1 : c ∈ s.data.dropWhile wsChar := mem_dropWhile_ws hws _ hmem
  have h2 : c ∈ (s.data.dropWhile wsChar).reverse := List.mem_reverse.mpr h1
  have h3 : c ∈ ((s.data.dropWhile wsChar).reverse).dropWhile wsChar :=
    mem_dropWhile_ws hws _ h2
  have h4 : c ∈ pyStripL s.data := List.mem_reverse.mpr h3
  show (pyStripL s.data).any (fun x => x == c) = true
  exact List.any_eq_true.mpr ⟨c, h4, by simp⟩

/-- Shape of a line accepted by the full constant regex: an uppercase head,
a `[A-Z0-9_]` run, then `:`. -/
theorem constFull_shape {line : String} {n ty : String} {v : Option String}
    (h : constFull line = some (n, ty, v)) :
    ∃ c rest rest2, line.data = c :: rest ∧ c.isUpper = true ∧
      rest.dropWhile constC = ':' :: rest2 := by
  cases hd : line.data with
  | nil =>
    simp only [constFull, hd] at h
    exact Option.noConfusion h
  | cons c rest =>
    simp only [constFull, hd] at h
    by_cases hup : c.isUpper = true
    · rw [if_pos hup] at h
      split at h
      · rename_i rest2 heq
        exact ⟨c, rest, rest2, rfl, hup, heq⟩
      · exact Option.noConfusion h
    · rw [if_neg hup] at h
      exact Option.noConfusion h

/-- C7, amended.  Whenever the full constant regex accepts the line at
`start` (gate plus its nonemptiness provisos: some text between `:` and any
`=`, and some text after an `=`), the classifier returns the constant with
that name, the trimmed declared type and the trimmed value; the assignment
rule always falls through on such a line because the text before its first
`=` still contains the `:`. -/
theorem c7_const (lines : List String) (start : Nat) (n ty : String) (v : Option String)
    (h : constFull (pyStrip (lines.getD start "")) = some (n, ty, v)) :
    parseComponent lines start =
      Except.ok (some { type := "constant", name := n
                        properties := [("type", ty)], value := v }) := by
  obtain ⟨c, rest, rest2, hd, hup, hdw⟩ := constFull_shape h
  have htail : componentTail lines start (pyStrip (lines.getD start "")) =
      some { type := "constant", name := n, properties := [("type", ty)], value := v } := by
    unfold componentTail
    rw [h]
  simp only [parseComponent]
  by_cases he : (containsC '=' (pyStrip (lines.getD start "")) &&
      !startsW "-" (pyStrip (lines.getD start ""))) = true
  · rw [if_pos he]
    have hrest : rest = rest.takeWhile constC ++ (':' :: rest2) := by
      conv_lhs => rw [← List.takeWhile_append_dropWhile (p := constC) (l := rest)]
      rw [hdw]
    have hmem : (':' : Char) ∈
        (pyStrip (lines.getD start "")).data.takeWhile (fun x => !(x == '=')) := by
      rw [hd, hrest]
      rw [show c :: (rest.takeWhile constC ++ (':' :: rest2)) =
            (c :: rest.takeWhile constC) ++ (':' :: rest2) from rfl]
      apply mem_takeWhile_mid
      · intro x hx
        rcases List.mem_cons.mp hx with h1 | h1
        · subst h1
          cases hq : (x == '=') with
          | true =>
            rw [beq_iff_eq.mp hq] at hup
            exact absurd hup (by decide)
          | false => simp [hq]
        · have hcx : constC x = true := List.mem_takeWhile_imp h1
          cases hq : (x == '=') with
          | true =>
            rw [beq_iff_eq.mp hq] at hcx
            exact absurd hcx (by decide)
          | false => simp [hq]
      · decide
    have hcon : containsC ':'
        (pyStrip (beforeC '=' (pyStrip (lines.getD start "")))) = true := by
      apply containsC_pyStrip (by decide)
      show ((pyStrip (lines.getD start "")).data.takeWhile fun x => !(x == '=')).any
        (fun x => x == ':') = true
      exact List.any_eq_true.mpr ⟨':', hmem, by simp⟩
    rw [if_neg (by rw [hcon]; simp)]
    rw [htail]
  · rw [if_neg he]
    rw [htail]

/-- Witness for C7's amended theorem at the claim's example
`MAX_SIZE: int = 100`. -/
theorem c7_const_w :
    parseComponent ["MAX_SIZE: int = 100"] 0 =
      Except.ok (some { type := "constant", name := "MAX_SIZE"
                        properties := [("type", "int")], value := some "100" }) :=
  c7_const ["MAX_SIZE: int = 100"] 0 "MAX_SIZE" "int" (some "100") rfl

end Blueprints
